import Mathlib

/-!
Verification development for the socket.io server core
(package `socketio`: `server.go`, `ack.go`, `protocol.go`, `utils.go`).

The Go code is shallowly embedded: Go maps become functions into `Option`,
Go map-key sets (`map[K]struct{}`) become `Finset`, Go channel pointers
(`*Channel`) become `Nat` identities, and each Go method becomes a pure Lean
function on an explicit state.  Broadcast functions return the set of
recipients for which the source spawns `go cn.Emit(...)` instead of
performing the emission.
-/

/-! ## Protocol constants (protocol.go) -/

def CONNECT : Int := 0
def DISCONNECT : Int := 1
def EVENT : Int := 2
def ACK : Int := 3

def DefaultNsp : String := "/"

def OpenMsg : String := "0"
def CloseMsg : String := "1"
def PingMsg : String := "2"
def PongMsg : String := "3"
def CommonMsg : String := "4"
def UpgradeMsg : String := "5"

/-- MsgPack record (protocol.go).  `Data` in the source is `interface{}`;
in the OPEN sequence it always carries `struct{ Sid string }`, which is what
`DataSid` embeds.  `MsgType` embeds the source field `Type`, a Lean keyword. -/
structure MsgPack where
  MsgType : Int
  DataSid : String
  Nsp : String
  Id : Int
  deriving DecidableEq, Repr

/-! ## Errors (server.go, ack.go) -/

inductive GoError where
  | serverNotSet
  | connectionNotFound
  | waiterNotFound
  deriving DecidableEq, Repr

def ErrorServerNotSet : GoError := .serverNotSet
def ErrorConnectionNotFound : GoError := .connectionNotFound
def ErrorWaiterNotFound : GoError := .waiterNotFound

/-! ## Data model: Header, Channel, Server state -/

/-- Modelled from the spec: the open header, "Attributes: sid, upgrade list
(empty in pure-WebSocket mode), ping interval, ping timeout" (the `Header`
struct lives in a repository file not present in the sources). -/
structure Header where
  Sid : String
  Upgrades : List String
  PingInterval : Int
  PingTimeout : Int
  deriving DecidableEq, Repr

/-- One `*Channel`.  `ptr` is the Go pointer identity (the key used by the
registry maps); `hasServer` is `c.server != nil`; `alive` is the liveness
flag behind `IsAlive()`. -/
structure Channel where
  ptr : Nat
  header : Header
  alive : Bool
  hasServer : Bool
  deriving DecidableEq, Repr

/-- Modelled from the spec: `id()` returns the channel's session id, the
`sid` attribute carried by its open header (the accessor lives in a
repository file not present in the sources; spec S1 fixes that both OPEN
frames carry this same sid). -/
def Channel.Id (c : Channel) : String := c.header.Sid

/-- Modelled from the spec: `is_alive()` reads the channel's alive flag
(the accessor lives in a repository file not present in the sources). -/
def Channel.IsAlive (c : Channel) : Bool := c.alive

/-- The server's mutable registries (server.go `Server` struct):
`headers : map[string]string`, `channels : map[string]map[*Channel]struct{}`,
`rooms : map[*Channel]map[string]struct{}`, `sids : map[string]*Channel`
(the sid map is kept as an association list of sid/pointer pairs). -/
structure ServerState where
  headers : String → Option String
  channels : String → Option (Finset Nat)
  rooms : Nat → Option (Finset String)
  sids : List (String × Nat)

/-- `NewServer`: all registries start empty. -/
def NewServer : ServerState :=
  { headers := fun _ => none
    channels := fun _ => none
    rooms := fun _ => none
    sids := [] }

/-- Members of a room bucket, with Go's missing-key-reads-as-empty view. -/
def roomMembers (s : ServerState) (room : String) : Finset Nat :=
  (s.channels room).getD ∅

/-- Rooms of a channel, with Go's missing-key-reads-as-empty view. -/
def channelRooms (s : ServerState) (p : Nat) : Finset String :=
  (s.rooms p).getD ∅

/-! ## Registry operations (server.go) -/

/-- Body of `Channel.Join` after the nil-server check: create the room
bucket and the channel's room set if absent, then insert into both. -/
def joinCore (p : Nat) (room : String) (s : ServerState) : ServerState :=
  let cn := (s.channels room).getD ∅
  let byRoom := (s.rooms p).getD ∅
  { s with
    channels := fun r => if r = room then some (insert p cn) else s.channels r
    rooms := fun q => if q = p then some (insert room byRoom) else s.rooms q }

/-- `Channel.Join`: returns `ErrorServerNotSet` untouched on a detached
channel, else updates both registry sides. -/
def Channel.Join (c : Channel) (room : String) (s : ServerState) :
    Option GoError × ServerState :=
  if c.hasServer = false then (some ErrorServerNotSet, s)
  else (none, joinCore c.ptr room s)

/-- Body of `Channel.Leave` after the nil-server check: if the room bucket
exists, delete the channel from it and prune the bucket when it empties; if
the channel's room set exists, delete the room from it (no pruning there). -/
def leaveCore (p : Nat) (room : String) (s : ServerState) : ServerState :=
  let channels' : String → Option (Finset Nat) :=
    match s.channels room with
    | none => s.channels
    | some m =>
        fun r =>
          if r = room then
            let m' := m.erase p
            if m' = ∅ then none else some m'
          else s.channels r
  let rooms' : Nat → Option (Finset String) :=
    match s.rooms p with
    | none => s.rooms
    | some br => fun q => if q = p then some (br.erase room) else s.rooms q
  { s with channels := channels', rooms := rooms' }

/-- `Channel.Leave`: returns `ErrorServerNotSet` untouched on a detached
channel, else removes the membership on both sides, pruning empty buckets. -/
def Channel.Leave (c : Channel) (room : String) (s : ServerState) :
    Option GoError × ServerState :=
  if c.hasServer = false then (some ErrorServerNotSet, s)
  else (none, leaveCore c.ptr room s)

/-- `onDisconnectCleanup`: if the channel has a room set, erase it from
every room bucket it names (pruning buckets that empty), then delete the
room set.  The source's loop touches bucket key `room` only in the
iteration for `room`, so the loop is expressed pointwise over keys.  The
trailing `go deleteSid(c)` is asynchronous and does not touch these two
maps, so it is not part of this state transition. -/
def onDisconnectCleanup (c : Channel) (s : ServerState) : ServerState :=
  match s.rooms c.ptr with
  | none => s
  | some byRoom =>
      { s with
        channels := fun r =>
          if r ∈ byRoom then
            match s.channels r with
            | none => none
            | some m =>
                let m' := m.erase c.ptr
                if m' = ∅ then none else some m'
          else s.channels r
        rooms := fun q => if q = c.ptr then none else s.rooms q }

/-! ## Operation sequences over the registry -/

/-- One registry call, as named by the claims. -/
inductive RegOp where
  | join : Channel → String → RegOp
  | leave : Channel → String → RegOp
  | cleanup : Channel → RegOp

def applyRegOp (s : ServerState) (op : RegOp) : ServerState :=
  match op with
  | .join c room => (Channel.Join c room s).2
  | .leave c room => (Channel.Leave c room s).2
  | .cleanup c => onDisconnectCleanup c s

def applyRegOps (ops : List RegOp) (s : ServerState) : ServerState :=
  ops.foldl applyRegOp s

/-- The room-registry bimap invariant of the spec:
membership of `C` in `channels[R]` iff membership of `R` in `rooms[C]`. -/
def bimapInv (s : ServerState) : Prop :=
  ∀ room p, p ∈ roomMembers s room ↔ room ∈ channelRooms s p

/-- The pruning invariant: no room key maps to an empty bucket. -/
def prunedInv (s : ServerState) : Prop :=
  ∀ room m, s.channels room = some m → m ≠ ∅

/-! ## C1/C2: invariant preservation lemmas -/

theorem prune_getD {α : Type} [DecidableEq α] (a : Finset α) :
    ((if a = ∅ then (none : Option (Finset α)) else some a).getD ∅) = a := by
  split <;> simp_all

theorem bimapInv_newServer : bimapInv NewServer := by
  intro r q
  simp [NewServer, roomMembers, channelRooms]

theorem bimapInv_joinCore {s : ServerState} (h : bimapInv s) (p : Nat) (room : String) :
    bimapInv (joinCore p room s) := by
  intro r q
  by_cases hr : r = room
  · by_cases hq : q = p
    · simp [joinCore, roomMembers, channelRooms, hr, hq]
    · simpa [joinCore, roomMembers, channelRooms, hr, hq] using h r q
  · by_cases hq : q = p
    · simpa [joinCore, roomMembers, channelRooms, hr, hq] using h r q
    · simpa [joinCore, roomMembers, channelRooms, hr, hq] using h r q

theorem bimapInv_leaveCore {s : ServerState} (h : bimapInv s) (p : Nat) (room : String) :
    bimapInv (leaveCore p room s) := by
  intro r q
  rcases hc : s.channels room with _ | m <;> rcases hb : s.rooms p with _ | br <;>
    by_cases hr : r = room <;> by_cases hq : q = p <;>
      first
        | (simp [leaveCore, roomMembers, channelRooms, hc, hb, hr, hq, prune_getD]; done)
        | simpa [leaveCore, roomMembers, channelRooms, hc, hb, hr, hq, prune_getD] using h r q

theorem bimapInv_onDisconnectCleanup {s : ServerState} (h : bimapInv s) (c : Channel) :
    bimapInv (onDisconnectCleanup c s) := by
  intro r q
  rcases hb : s.rooms c.ptr with _ | byRoom
  · simpa [onDisconnectCleanup, hb] using h r q
  · by_cases hq : q = c.ptr
    · by_cases hr : r ∈ byRoom
      · rcases hcr : s.channels r with _ | m <;>
          simp [onDisconnectCleanup, hb, hq, hr, hcr, roomMembers, channelRooms, prune_getD]
      · have hrq := h r q
        rw [roomMembers, channelRooms] at hrq
        rw [hq, hb] at hrq
        simp only [Option.getD_some] at hrq
        simp [onDisconnectCleanup, hb, hq, hr, roomMembers, channelRooms, hrq]
    · by_cases hr : r ∈ byRoom
      · rcases hcr : s.channels r with _ | m <;>
          first
            | (simp [onDisconnectCleanup, hb, hq, hr, hcr, roomMembers, channelRooms,
                prune_getD]; done)
            | simpa [onDisconnectCleanup, hb, hq, hr, hcr, roomMembers, channelRooms,
                prune_getD] using h r q
      · simpa [onDisconnectCleanup, hb, hq, hr, roomMembers, channelRooms] using h r q

theorem bimapInv_applyRegOp {s : ServerState} (h : bimapInv s) (op : RegOp) :
    bimapInv (applyRegOp s op) := by
  cases op with
  | join c room =>
      by_cases hs : c.hasServer = false
      · simpa [applyRegOp, Channel.Join, hs] using h
      · simpa [applyRegOp, Channel.Join, hs] using bimapInv_joinCore h c.ptr room
  | leave c room =>
      by_cases hs : c.hasServer = false
      · simpa [applyRegOp, Channel.Leave, hs] using h
      · simpa [applyRegOp, Channel.Leave, hs] using bimapInv_leaveCore h c.ptr room
  | cleanup c => exact bimapInv_onDisconnectCleanup h c

theorem bimapInv_applyRegOps (ops : List RegOp) :
    ∀ s : ServerState, bimapInv s → bimapInv (applyRegOps ops s) := by
  induction ops with
  | nil => exact fun s h => h
  | cons op ops ih =>
      intro s h
      exact ih (applyRegOp s op) (bimapInv_applyRegOp h op)

theorem prunedInv_newServer : prunedInv NewServer := by
  intro room m hm
  simp [NewServer] at hm

theorem prunedInv_joinCore {s : ServerState} (h : prunedInv s) (p : Nat) (room : String) :
    prunedInv (joinCore p room s) := by
  intro r m hm
  by_cases hr : r = room
  · simp [joinCore, hr] at hm
    subst hm
    simp
  · exact h r m (by simpa [joinCore, hr] using hm)

theorem prunedInv_leaveCore {s : ServerState} (h : prunedInv s) (p : Nat) (room : String) :
    prunedInv (leaveCore p room s) := by
  intro r m hm
  rcases hc : s.channels room with _ | m₀
  · exact h r m (by simpa [leaveCore, hc] using hm)
  · by_cases hr : r = room
    · simp only [leaveCore, hc, hr, if_pos] at hm
      split at hm
      · exact absurd hm (by simp)
      · rename_i hne
        obtain rfl : m₀.erase p = m := by simpa using hm
        exact hne
    · exact h r m (by simpa [leaveCore, hc, hr] using hm)

theorem prunedInv_onDisconnectCleanup {s : ServerState} (h : prunedInv s) (c : Channel) :
    prunedInv (onDisconnectCleanup c s) := by
  intro r m hm
  rcases hb : s.rooms c.ptr with _ | byRoom
  · exact h r m (by simpa [onDisconnectCleanup, hb] using hm)
  · by_cases hr : r ∈ byRoom
    · simp only [onDisconnectCleanup, hb, if_pos hr] at hm
      rcases hcr : s.channels r with _ | m₀
      · rw [hcr] at hm
        exact absurd hm (by simp)
      · rw [hcr] at hm
        simp only at hm
        split at hm
        · exact absurd hm (by simp)
        · rename_i hne
          obtain rfl : m₀.erase c.ptr = m := by simpa using hm
          exact hne
    · exact h r m (by simpa [onDisconnectCleanup, hb, hr] using hm)

theorem prunedInv_applyRegOp {s : ServerState} (h : prunedInv s) (op : RegOp) :
    prunedInv (applyRegOp s op) := by
  cases op with
  | join c room =>
      by_cases hs : c.hasServer = false
      · simpa [applyRegOp, Channel.Join, hs] using h
      · simpa [applyRegOp, Channel.Join, hs] using prunedInv_joinCore h c.ptr room
  | leave c room =>
      by_cases hs : c.hasServer = false
      · simpa [applyRegOp, Channel.Leave, hs] using h
      · simpa [applyRegOp, Channel.Leave, hs] using prunedInv_leaveCore h c.ptr room
  | cleanup c => exact prunedInv_onDisconnectCleanup h c

theorem prunedInv_applyRegOps (ops : List RegOp) :
    ∀ s : ServerState, prunedInv s → prunedInv (applyRegOps ops s) := by
  induction ops with
  | nil => exact fun s h => h
  | cons op ops ih =>
      intro s h
      exact ih (applyRegOp s op) (prunedInv_applyRegOp h op)

/-- C1: for every room `R` and channel `C`, `C` is in `channels[R]` iff `R`
is in `rooms[C]`, after any sequence of `Channel.Join`, `Channel.Leave` and
`onDisconnectCleanup` calls starting from the empty registries of
`NewServer`. -/
theorem roomRegistry_bimap_invariant (ops : List RegOp) (room : String) (p : Nat) :
    p ∈ roomMembers (applyRegOps ops NewServer) room ↔
      room ∈ channelRooms (applyRegOps ops NewServer) p :=
  bimapInv_applyRegOps ops NewServer bimapInv_newServer room p

/-- C2: after any sequence of `Channel.Join`, `Channel.Leave` and
`onDisconnectCleanup` calls starting from the registries of `NewServer`, a
room key is present in the `channels` map iff its bucket has at least one
member; in particular no present key holds an empty set. -/
theorem emptyRoomBuckets_pruned (ops : List RegOp) (room : String) :
    ((applyRegOps ops NewServer).channels room ≠ none ↔
      roomMembers (applyRegOps ops NewServer) room ≠ ∅) ∧
    ∀ m, (applyRegOps ops NewServer).channels room = some m → m ≠ ∅ := by
  have h := prunedInv_applyRegOps ops NewServer prunedInv_newServer
  refine ⟨⟨fun hne => ?_, fun hne => ?_⟩, fun m hm => h room m hm⟩
  · rcases hc : (applyRegOps ops NewServer).channels room with _ | m
    · exact absurd hc hne
    · simpa [roomMembers, hc] using h room m hc
  · intro hnone
    exact hne (by simp [roomMembers, hnone])

/-! ## ACK correlator (ack.go) -/

/-- Two's-complement wrap into the 64-bit signed range
`[-2^63, 2^63)`; Go's `int` arithmetic on the 64-bit platforms this server
targets wraps this way on overflow. -/
def wrap64 (z : Int) : Int := (z + 2 ^ 63) % 2 ^ 64 - 2 ^ 63

/-- The `ackProcessor` struct: an id counter and the waiter map
(`sync.Map` keyed by ack id; a waiter `chan interface{}` is identified by a
`Nat` token).  The counter is Go's 64-bit `int`, kept as an `Int` that every
write sends through `wrap64`. -/
@[ext]
structure ackProcessor where
  counter : Int
  resultWaitersMap : Int → Option Nat
  deriving Inhabited

/-- Zero value of `ackProcessor`: counter 0, empty waiter map. -/
def newAckProcessor : ackProcessor := ⟨0, fun _ => none⟩

/-- `getNextId`: increment the counter (Go `int` increment, wrapping at
`2^63`) and return it. -/
def ackProcessor.getNextId (a : ackProcessor) : Int × ackProcessor :=
  let c := wrap64 (a.counter + 1)
  (c, { a with counter := c })

/-- `addWaiter`: store `w` under `id` in the waiter map. -/
def ackProcessor.addWaiter (a : ackProcessor) (i : Int) (w : Nat) : ackProcessor :=
  { a with resultWaitersMap := fun j => if j = i then some w else a.resultWaitersMap j }

/-- `removeWaiter`: delete `id` from the waiter map. -/
def ackProcessor.removeWaiter (a : ackProcessor) (i : Int) : ackProcessor :=
  { a with resultWaitersMap := fun j => if j = i then none else a.resultWaitersMap j }

/-- `getWaiter`: load `id`; return the waiter, or `ErrorWaiterNotFound`. -/
def ackProcessor.getWaiter (a : ackProcessor) (i : Int) : Except GoError Nat :=
  match a.resultWaitersMap i with
  | some w => .ok w
  | none => .error ErrorWaiterNotFound

/-- State after `n` calls of `getNextId` on a fresh processor. -/
def ackAfter : Nat → ackProcessor
  | 0 => newAckProcessor
  | n + 1 => (ackProcessor.getNextId (ackAfter n)).2

/-- Value returned by the `n`-th call of `getNextId` (`n ≥ 1`). -/
def nthAckId (n : Nat) : Int := (ackProcessor.getNextId (ackAfter (n - 1))).1

theorem wrap64_add_one (z : Int) : wrap64 (wrap64 z + 1) = wrap64 (z + 1) := by
  unfold wrap64
  omega

theorem ackAfter_counter (n : Nat) : (ackAfter n).counter = wrap64 n := by
  induction n with
  | zero =>
      show (0 : Int) = wrap64 0
      unfold wrap64
      omega
  | succ n ih =>
      show wrap64 ((ackAfter n).counter + 1) = wrap64 ((n + 1 : Nat) : Int)
      rw [ih, wrap64_add_one]
      norm_cast

theorem nthAckId_eq_wrap (n : Nat) (h : 1 ≤ n) : nthAckId n = wrap64 n := by
  show wrap64 ((ackAfter (n - 1)).counter + 1) = wrap64 n
  rw [ackAfter_counter, wrap64_add_one]
  congr 1
  omega

/-- Counterexample to C3 as stated: the `2^63`-rd `getNextId` call wraps
Go's 64-bit `int` counter to `-2^63`, so it does not return its call index
and is smaller than the value the first call returned. -/
theorem ackId_wrap_counterexample :
    nthAckId (2 ^ 63) = -(2 ^ 63) ∧ nthAckId (2 ^ 63) ≠ ((2 ^ 63 : Nat) : Int) ∧
      nthAckId (2 ^ 63) < nthAckId 1 := by
  have h1 : nthAckId (2 ^ 63) = wrap64 ((2 ^ 63 : Nat) : Int) :=
    nthAckId_eq_wrap (2 ^ 63) (by norm_num)
  have h2 : nthAckId 1 = wrap64 1 := nthAckId_eq_wrap 1 le_rfl
  have hc : ((2 ^ 63 : Nat) : Int) = 2 ^ 63 := by norm_cast
  rw [h1, h2, hc]
  unfold wrap64
  omega

/-- C3 (amended): before the counter wraps — that is, for the calls
`n < 2^63` — the first `getNextId` call on a fresh `ackProcessor` returns 1,
the `n`-th call returns `n`, and every call returns a value strictly
greater than every previously returned value. -/
theorem ackId_monotonic (n : Nat) (hn : 1 ≤ n) (hwrap : n < 2 ^ 63) :
    nthAckId 1 = 1 ∧ nthAckId n = n ∧
      ∀ m : Nat, 1 ≤ m → m < n → nthAckId m < nthAckId n := by
  have key : ∀ k : Nat, 1 ≤ k → k < 2 ^ 63 → nthAckId k = k := by
    intro k hk hkw
    rw [nthAckId_eq_wrap k hk]
    unfold wrap64
    omega
  refine ⟨key 1 le_rfl (by norm_num), key n hn hwrap, fun m hm hmn => ?_⟩
  rw [key m hm (hmn.trans hwrap), key n hn hwrap]
  exact_mod_cast hmn

/-- Witness for C3 at the third call. -/
theorem ackId_monotonic_witness :
    nthAckId 1 = 1 ∧ nthAckId 3 = 3 ∧
      ∀ m : Nat, 1 ≤ m → m < 3 → nthAckId m < nthAckId 3 :=
  ackId_monotonic 3 (by decide) (by norm_num)

/-! ## C4: waiter registration round-trip -/

/-- One waiter-map call. -/
inductive AckOp where
  | add : Int → Nat → AckOp
  | remove : Int → AckOp
  deriving DecidableEq

def applyAckOp (a : ackProcessor) (op : AckOp) : ackProcessor :=
  match op with
  | .add i w => a.addWaiter i w
  | .remove i => a.removeWaiter i

def applyAckOps (ops : List AckOp) (a : ackProcessor) : ackProcessor :=
  ops.foldl applyAckOp a

theorem waiterMap_untouched (i : Int) (ops : List AckOp) :
    ∀ a : ackProcessor, a.resultWaitersMap i = none →
      (∀ w', AckOp.add i w' ∉ ops) →
      (applyAckOps ops a).resultWaitersMap i = none := by
  induction ops with
  | nil => exact fun a ha _ => ha
  | cons op ops ih =>
      intro a ha hops
      have hops' : ∀ w', AckOp.add i w' ∉ ops := by
        intro w' hw
        exact hops w' (List.mem_cons_of_mem op hw)
      refine ih (applyAckOp a op) ?_ hops'
      cases op with
      | add j w' =>
          have hji : j ≠ i := by
            intro hji
            exact hops w' (by simp [hji])
          simpa [applyAckOp, ackProcessor.addWaiter, Ne.symm hji] using ha
      | remove j =>
          by_cases hji : i = j <;>
            simp [applyAckOp, ackProcessor.removeWaiter, hji, ha]

/-- C4: `addWaiter` then `getWaiter` yields the stored waiter; after
`removeWaiter` (and for any id no `addWaiter` call ever mentioned)
`getWaiter` yields `ErrorWaiterNotFound`; `removeWaiter` of an unregistered
id leaves the processor unchanged. -/
theorem ackWaiter_roundTrip (a : ackProcessor) (i : Int) (w : Nat) :
    (a.addWaiter i w).getWaiter i = .ok w ∧
      (a.removeWaiter i).getWaiter i = .error ErrorWaiterNotFound ∧
      (∀ ops : List AckOp, (∀ w', AckOp.add i w' ∉ ops) →
        (applyAckOps ops newAckProcessor).getWaiter i = .error ErrorWaiterNotFound) ∧
      (a.resultWaitersMap i = none → a.removeWaiter i = a) := by
  refine ⟨?_, ?_, ?_, ?_⟩
  · simp [ackProcessor.addWaiter, ackProcessor.getWaiter]
  · simp [ackProcessor.removeWaiter, ackProcessor.getWaiter]
  · intro ops hops
    have h := waiterMap_untouched i ops newAckProcessor rfl hops
    simp [ackProcessor.getWaiter, h]
  · intro ha
    ext j
    · rfl
    · by_cases hji : j = i <;> simp [ackProcessor.removeWaiter, hji, ha]

/-- Witness for C4 on a fresh processor with id 5, waiter token 7. -/
theorem ackWaiter_roundTrip_witness :
    (newAckProcessor.addWaiter 5 7).getWaiter 5 = .ok 7 ∧
      (newAckProcessor.removeWaiter 5).getWaiter 5 = .error ErrorWaiterNotFound ∧
      (applyAckOps [AckOp.add 4 1, AckOp.remove 4] newAckProcessor).getWaiter 5 =
        .error ErrorWaiterNotFound ∧
      newAckProcessor.removeWaiter 5 = newAckProcessor := by
  have h := ackWaiter_roundTrip newAckProcessor 5 7
  refine ⟨h.1, h.2.1, h.2.2.1 _ ?_, h.2.2.2 rfl⟩
  intro w' hw
  simp [AckOp.add.injEq] at hw

/-! ## Broadcast and query operations (server.go) -/

/-- `Channel.BroadcastTo`: on an attached channel, every member of the room
bucket that is alive and whose `Id()` differs from the caller's gets an
emission (`go cn.Emit(...)` in the source); the result is that recipient
set.  `env` is the heap: it resolves a channel pointer to the pointed-to
channel object at snapshot time.  `method` and the arguments do not affect
the recipient set. -/
def Channel.BroadcastTo (c : Channel) (room method : String) (env : Nat → Channel)
    (s : ServerState) : Finset Nat :=
  if c.hasServer = false then ∅
  else
    match s.channels room with
    | none => ∅
    | some roomChannels =>
        roomChannels.filter (fun p => (env p).Id ≠ c.Id ∧ (env p).IsAlive = true)

/-- `Server.BroadcastTo`: every alive member of the room bucket gets an
emission. -/
def Server.BroadcastTo (s : ServerState) (room method : String)
    (env : Nat → Channel) : Finset Nat :=
  match s.channels room with
  | none => ∅
  | some roomChannels => roomChannels.filter (fun p => (env p).IsAlive = true)

/-- `Server.BroadcastToAll`: every alive channel in the sid registry gets an
emission. -/
def Server.BroadcastToAll (s : ServerState) (method : String)
    (env : Nat → Channel) : List Nat :=
  (s.sids.filter (fun pr => (env pr.2).IsAlive)).map Prod.snd

/-- `Server.Amount`: size of the room bucket (0 for a missing key). -/
def Server.Amount (s : ServerState) (room : String) : Nat :=
  (roomMembers s room).card

/-- `Server.List`: snapshot copy of the room bucket (empty for a missing
key); the Go iteration order over the map is arbitrary, the copy is
embedded in ascending pointer order. -/
def Server.List (s : ServerState) (room : String) : List Nat :=
  match s.channels room with
  | none => []
  | some roomChannels => roomChannels.sort (· ≤ ·)

/-- `Channel.Amount`: 0 on a detached channel, else the server's count. -/
def Channel.Amount (c : Channel) (room : String) (s : ServerState) : Nat :=
  if c.hasServer = false then 0 else Server.Amount s room

/-- `Channel.List`: empty on a detached channel, else the server's copy. -/
def Channel.List (c : Channel) (room : String) (s : ServerState) : List Nat :=
  if c.hasServer = false then [] else Server.List s room

/-- `Server.EnableCORS`: set the two CORS response headers. -/
def Server.EnableCORS (s : ServerState) (domain : String) : ServerState :=
  let h1 : String → Option String :=
    fun k => if k = "Access-Control-Allow-Origin" then some domain else s.headers k
  let h2 : String → Option String :=
    fun k => if k = "Access-Control-Allow-Credentials" then some "true" else h1 k
  { s with headers := h2 }

/-- `Server.AddHeader`: set one response header. -/
def Server.AddHeader (s : ServerState) (name value : String) : ServerState :=
  { s with headers := fun k => if k = name then some value else s.headers k }

/-! ## OPEN sequence (server.go `SendOpenSequence`) -/

/-- One item on a channel's outbound queue (`c.out <- ...`): a pre-encoded
text frame, or a `MsgPack` record. -/
inductive OutItem where
  | text : String → OutItem
  | pack : MsgPack → OutItem
  deriving DecidableEq, Repr

/-- JSON string literal (quotes around the text). -/
def jsonString (s : String) : String := "\"" ++ s ++ "\""

/-- JSON array of string literals. -/
def jsonStringArray (l : List String) : String :=
  "[" ++ String.intercalate "," (l.map jsonString) ++ "]"

/-- Modelled from the spec: the JSON form of the open header, with the §6
field names `sid`, `upgrades`, `pingInterval`, `pingTimeout` in the struct's
order (JSON serialization itself is an out-of-scope external collaborator). -/
def headerJson (h : Header) : String :=
  "\x7b\"sid\":" ++ jsonString h.Sid ++
    ",\"upgrades\":" ++ jsonStringArray h.Upgrades ++
    ",\"pingInterval\":" ++ toString h.PingInterval ++
    ",\"pingTimeout\":" ++ toString h.PingTimeout ++ "\x7d"

/-- Modelled from the spec: the JSON form of `struct{ Sid string }`, the
`\x7b"sid":"<sid>"\x7d` object of the CONNECT reply. -/
def sidJson (sid : String) : String := "\x7b\"sid\":" ++ jsonString sid ++ "\x7d"

/-- The outbound-queue content produced by one call, oldest first.  (Named
at top level because `Server.List` above shadows `List` inside `Server.*`
signatures.) -/
abbrev OutQueue := List OutItem

/-- `Server.SendOpenSequence`: enqueue the OPEN frame, then the CONNECT
item — a `MsgPack` record when the transport uses binary framing
(`s.tr.BinaryMessage`, passed here as `binaryMessage`), else the text frame
`"4" + "0" + json`. -/
def Server.SendOpenSequence (binaryMessage : Bool) (c : Channel) : OutQueue :=
  let openFrame := OutItem.text (OpenMsg ++ headerJson c.header)
  if binaryMessage then
    [openFrame,
     OutItem.pack { MsgType := CONNECT, DataSid := c.Id, Nsp := DefaultNsp, Id := 0 }]
  else
    [openFrame, OutItem.text (CommonMsg ++ OpenMsg ++ sidJson c.Id)]

/-! ## Concrete fixtures used by the witnesses -/

def chanA : Channel :=
  { ptr := 1, header := ⟨"a", [], 25000, 20000⟩, alive := true, hasServer := true }

def chanB : Channel :=
  { ptr := 2, header := ⟨"b", [], 25000, 20000⟩, alive := true, hasServer := true }

def chanDead : Channel :=
  { ptr := 3, header := ⟨"z", [], 25000, 20000⟩, alive := false, hasServer := true }

def detachedChan : Channel :=
  { ptr := 0, header := ⟨"d", [], 25000, 20000⟩, alive := true, hasServer := false }

/-- Heap for the witnesses: pointers 1, 2 resolve to the two alive channels,
everything else to the dead one. -/
def envW : Nat → Channel :=
  fun p => if p = 1 then chanA else if p = 2 then chanB else chanDead

/-- Room state for the witnesses: all three channels joined room `"r"`. -/
def stateW : ServerState :=
  applyRegOps [RegOp.join chanA "r", RegOp.join chanB "r", RegOp.join chanDead "r"]
    NewServer

/-- Sid-registry state for the witnesses. -/
def stateSids : ServerState :=
  { NewServer with sids := [("a", 1), ("b", 2), ("z", 3)] }

/-! ## Claim theorems C5 - C10 -/

/-- C5: on a detached channel (`c.server == nil`), `Join` and `Leave`
return `ErrorServerNotSet` for every room, and the registry state is
returned unmodified. -/
theorem detached_join_leave_fail_atomically (c : Channel) (room : String)
    (s : ServerState) (h : c.hasServer = false) :
    Channel.Join c room s = (some ErrorServerNotSet, s) ∧
      Channel.Leave c room s = (some ErrorServerNotSet, s) := by
  simp [Channel.Join, Channel.Leave, h]

/-- Witness for C5: a concrete detached channel against the fresh server. -/
theorem detached_join_leave_fail_atomically_witness :
    Channel.Join detachedChan "r" NewServer = (some ErrorServerNotSet, NewServer) ∧
      Channel.Leave detachedChan "r" NewServer = (some ErrorServerNotSet, NewServer) :=
  detached_join_leave_fail_atomically detachedChan "r" NewServer rfl

/-- C6: on an attached channel, `Channel.BroadcastTo` dispatches to exactly
the alive members of the room whose id differs from the sender's; any
channel carrying the sender's id (the sender in particular) is excluded,
and a room without a bucket yields no dispatch at all. -/
theorem channelBroadcastTo_excludes_sender (c : Channel) (room method : String)
    (env : Nat → Channel) (s : ServerState) (h : c.hasServer = true) :
    (∀ p, p ∈ Channel.BroadcastTo c room method env s ↔
        p ∈ roomMembers s room ∧ (env p).IsAlive = true ∧ (env p).Id ≠ c.Id) ∧
      (∀ p, (env p).Id = c.Id → p ∉ Channel.BroadcastTo c room method env s) ∧
      (s.channels room = none → Channel.BroadcastTo c room method env s = ∅) := by
  have hmem : ∀ p, p ∈ Channel.BroadcastTo c room method env s ↔
      p ∈ roomMembers s room ∧ (env p).IsAlive = true ∧ (env p).Id ≠ c.Id := by
    intro p
    rcases hc : s.channels room with _ | m
    · simp [Channel.BroadcastTo, h, hc, roomMembers]
    · simp only [Channel.BroadcastTo, h, hc, roomMembers, Option.getD_some]
      simp only [Bool.true_eq_false, if_false, Finset.mem_filter]
      tauto
  refine ⟨hmem, fun p hid hp => ?_, fun hc => ?_⟩
  · exact ((hmem p).mp hp).2.2 hid
  · simp [Channel.BroadcastTo, h, hc]

/-- Witness for C6: sender A (sid "a") broadcasting into room "r" that
holds A, B and a dead channel reaches exactly B; a missing room reaches
nobody. -/
theorem channelBroadcastTo_excludes_sender_witness :
    (2 ∈ Channel.BroadcastTo chanA "r" "x" envW stateW ↔
        2 ∈ roomMembers stateW "r" ∧ (envW 2).IsAlive = true ∧ (envW 2).Id ≠ chanA.Id) ∧
      (1 ∉ Channel.BroadcastTo chanA "r" "x" envW stateW) ∧
      Channel.BroadcastTo chanA "nope" "x" envW stateW = ∅ := by
  have h := channelBroadcastTo_excludes_sender chanA "r" "x" envW stateW rfl
  have h' := channelBroadcastTo_excludes_sender chanA "nope" "x" envW stateW rfl
  exact ⟨h.1 2, h.2.1 1 rfl, h'.2.2 (by decide)⟩

/-- C7: none of the three broadcast operations dispatches to a channel
whose alive flag is off at snapshot time. -/
theorem broadcast_only_alive (c : Channel) (room method : String)
    (env : Nat → Channel) (s : ServerState) (p : Nat) :
    (p ∈ Channel.BroadcastTo c room method env s → (env p).IsAlive = true) ∧
      (p ∈ Server.BroadcastTo s room method env → (env p).IsAlive = true) ∧
      (p ∈ Server.BroadcastToAll s method env → (env p).IsAlive = true) := by
  refine ⟨fun hp => ?_, fun hp => ?_, fun hp => ?_⟩
  · by_cases hs : c.hasServer = false
    · simp [Channel.BroadcastTo, hs] at hp
    · rcases hc : s.channels room with _ | m
      · simp [Channel.BroadcastTo, hs, hc] at hp
      · simp only [Channel.BroadcastTo, hs, hc, Bool.true_eq_false, if_false,
          Finset.mem_filter] at hp
        exact hp.2.2
  · rcases hc : s.channels room with _ | m
    · simp [Server.BroadcastTo, hc] at hp
    · simp only [Server.BroadcastTo, hc, Finset.mem_filter] at hp
      exact hp.2
  · simp only [Server.BroadcastToAll, List.mem_map, List.mem_filter] at hp
    obtain ⟨pr, ⟨_, halive⟩, rfl⟩ := hp
    exact halive

/-- Witness for C7: each of the three broadcasts has a recipient in the
fixture states, and that recipient is alive. -/
theorem broadcast_only_alive_witness :
    (2 ∈ Channel.BroadcastTo chanA "r" "x" envW stateW ∧ (envW 2).IsAlive = true) ∧
      (2 ∈ Server.BroadcastTo stateW "r" "x" envW ∧ (envW 2).IsAlive = true) ∧
      (1 ∈ Server.BroadcastToAll stateSids "x" envW ∧ (envW 1).IsAlive = true) := by
  refine ⟨⟨by decide, ?_⟩, ⟨by decide, ?_⟩, ⟨by decide, ?_⟩⟩
  · exact (broadcast_only_alive chanA "r" "x" envW stateW 2).1 (by decide)
  · exact (broadcast_only_alive chanA "r" "x" envW stateW 2).2.1 (by decide)
  · exact (broadcast_only_alive chanA "r" "x" envW stateSids 1).2.2 (by decide)

/-- C8: `SendOpenSequence` enqueues exactly two items, the OPEN frame
(`"0"` + header JSON) first, then a CONNECT item carrying the header's sid:
a `MsgPack` record with type CONNECT and namespace "/" in binary mode, the
text frame `"40"` + `\x7b"sid":<sid>\x7d` in text mode. -/
theorem sendOpenSequence_two_frames (b : Bool) (c : Channel) :
    (Server.SendOpenSequence b c).length = 2 ∧
      (Server.SendOpenSequence b c).head? =
        some (OutItem.text (OpenMsg ++ headerJson c.header)) ∧
      (b = true → (Server.SendOpenSequence b c)[1]? =
        some (OutItem.pack
          { MsgType := CONNECT, DataSid := c.header.Sid, Nsp := DefaultNsp, Id := 0 })) ∧
      (b = false → (Server.SendOpenSequence b c)[1]? =
        some (OutItem.text ("40" ++ sidJson c.header.Sid))) := by
  have h40 : CommonMsg ++ OpenMsg = "40" := rfl
  cases b <;>
    simp [Server.SendOpenSequence, Channel.Id, ← h40, String.append_assoc]

/-- Witness for C8 on channel A (sid "a"), in both transport modes. -/
theorem sendOpenSequence_two_frames_witness :
    (Server.SendOpenSequence true chanA).length = 2 ∧
      (Server.SendOpenSequence true chanA)[1]? =
        some (OutItem.pack
          { MsgType := CONNECT, DataSid := "a", Nsp := DefaultNsp, Id := 0 }) ∧
      (Server.SendOpenSequence false chanA)[1]? =
        some (OutItem.text ("40" ++ sidJson "a")) := by
  have ht := sendOpenSequence_two_frames true chanA
  have hf := sendOpenSequence_two_frames false chanA
  exact ⟨ht.1, ht.2.2.1 rfl, hf.2.2.2 rfl⟩

/-- C9: `EnableCORS d` sets exactly the two CORS headers (origin to `d`,
credentials to "true"), leaves all other header entries unchanged, and a
later `AddHeader` under a different name leaves both CORS entries intact. -/
theorem enableCORS_sets_two_headers (s : ServerState) (d : String) :
    (Server.EnableCORS s d).headers "Access-Control-Allow-Origin" = some d ∧
      (Server.EnableCORS s d).headers "Access-Control-Allow-Credentials" = some "true" ∧
      (∀ k, k ≠ "Access-Control-Allow-Origin" → k ≠ "Access-Control-Allow-Credentials" →
        (Server.EnableCORS s d).headers k = s.headers k) ∧
      (∀ n v, n ≠ "Access-Control-Allow-Origin" → n ≠ "Access-Control-Allow-Credentials" →
        (Server.AddHeader (Server.EnableCORS s d) n v).headers
            "Access-Control-Allow-Origin" = some d ∧
          (Server.AddHeader (Server.EnableCORS s d) n v).headers
            "Access-Control-Allow-Credentials" = some "true") := by
  refine ⟨by simp [Server.EnableCORS], by simp [Server.EnableCORS], ?_, ?_⟩
  · intro k hk1 hk2
    simp [Server.EnableCORS, hk1, hk2]
  · intro n v hn1 hn2
    constructor <;>
      simp [Server.EnableCORS, Server.AddHeader, Ne.symm hn1, Ne.symm hn2]

/-- Witness for C9 on the fresh server with domain "https://example.test"
and an unrelated later header. -/
theorem enableCORS_sets_two_headers_witness :
    (Server.EnableCORS NewServer "https://example.test").headers
        "Access-Control-Allow-Origin" = some "https://example.test" ∧
      (Server.EnableCORS NewServer "https://example.test").headers
        "Access-Control-Allow-Credentials" = some "true" ∧
      (Server.EnableCORS NewServer "https://example.test").headers "X-Other" =
        NewServer.headers "X-Other" ∧
      (Server.AddHeader (Server.EnableCORS NewServer "https://example.test")
          "X-Other" "1").headers "Access-Control-Allow-Origin" =
        some "https://example.test" ∧
      (Server.AddHeader (Server.EnableCORS NewServer "https://example.test")
          "X-Other" "1").headers "Access-Control-Allow-Credentials" = some "true" := by
  have h := enableCORS_sets_two_headers NewServer "https://example.test"
  have hother := h.2.2.2 "X-Other" "1" (by decide) (by decide)
  exact ⟨h.1, h.2.1, h.2.2.1 "X-Other" (by decide) (by decide), hother.1, hother.2⟩

/-- C10: on a detached channel, `Amount` returns 0, `List` returns the
empty list, and `BroadcastTo` dispatches nothing — silently, with no error
value in any of the three signatures. -/
theorem detached_query_broadcast_silent (c : Channel) (room method : String)
    (env : Nat → Channel) (s : ServerState) (h : c.hasServer = false) :
    Channel.Amount c room s = 0 ∧ Channel.List c room s = [] ∧
      Channel.BroadcastTo c room method env s = ∅ := by
  simp [Channel.Amount, Channel.List, Channel.BroadcastTo, h]

/-- Witness for C10: the concrete detached channel against the populated
room state. -/
theorem detached_query_broadcast_silent_witness :
    Channel.Amount detachedChan "r" stateW = 0 ∧
      Channel.List detachedChan "r" stateW = [] ∧
      Channel.BroadcastTo detachedChan "r" "x" envW stateW = ∅ :=
  detached_query_broadcast_silent detachedChan "r" "x" envW stateW rfl

/-- Witness for C2: after one join the bucket of "r" is exactly the
nonempty set containing the joining channel. -/
theorem emptyRoomBuckets_pruned_witness :
    ((applyRegOps [RegOp.join chanA "r"] NewServer).channels "r" ≠ none ↔
        roomMembers (applyRegOps [RegOp.join chanA "r"] NewServer) "r" ≠ ∅) ∧
      ({1} : Finset Nat) ≠ ∅ := by
  have h := emptyRoomBuckets_pruned [RegOp.join chanA "r"] "r"
  exact ⟨h.1, h.2 {1} (by decide)⟩
